import Mathlib

/-!
Verification development for the NASentinel repository core: the paginated
log-retrieval and session-management protocol client (module/api.py), the two
log aggregators (module/system_log.py, module/filestation_log.py), the ranking
export (module/ranking_log.py) and the ranking computation
(populate_rankings in module/main.py).

Network effects are modelled explicitly: a server is a function from request
index (or page offset) to a response, and every operation reports how many
network requests it issued, so that "fails without a network call" and
"retries up to 3 attempts" are provable statements.
-/

/-! ### String helpers

Python's `str.lower()` and string comparison, modelled over the character
lists of Lean strings (per code point, matching Python semantics for the
ASCII and CJK data this program handles). -/

/-- Python `str.lower()` on one character: ASCII uppercase letters are shifted
by 32, everything else (including CJK) is unchanged. -/
def lowerChar (c : Char) : Char :=
  if 65 ≤ c.toNat ∧ c.toNat ≤ 90 then Char.ofNat (c.toNat + 32) else c

/-- Python `str.lower()`. -/
def toLowerStr (s : String) : String := ⟨s.data.map lowerChar⟩

/-- Code-point lexicographic `≤` on character lists (Python string order). -/
def lexLe : List Char → List Char → Bool
  | [], _ => true
  | _ :: _, [] => false
  | a :: as, b :: bs =>
    decide (a.toNat < b.toNat) || (decide (a.toNat = b.toNat) && lexLe as bs)

/-- Python string `≤` (lexicographic by code point). -/
def strLe (a b : String) : Bool := lexLe a.data b.data

/-- Python `pat in s` / pandas `.str.contains(pat)` substring test. -/
def hasInfix (pat : List Char) : List Char → Bool
  | [] => pat.isEmpty
  | c :: t => pat.isPrefixOf (c :: t) || hasInfix pat t

/-- Substring containment on strings: `strContains s pat` is true when `pat`
occurs contiguously inside `s`. -/
def strContains (s pat : String) : Bool := hasInfix pat.data s.data

/-! ### Session client state and network modelling (module/api.py) -/

/-- The mutable state of a `NASClient`: the stored session token `sid`
(absent until a successful login). Host/port only shape URLs and are not
modelled. -/
structure ClientState where
  sid : Option String

/-- Outcome of one HTTP request: a transport-level failure
(`requests.RequestException`: connection error, timeout, malformed HTTP) or a
well-formed response carrying payload `α`. -/
inductive NetResult (α : Type) where
  | transport (msg : String)
  | resp (d : α)

/-- A parsed JSON body of one log-page response: the application-level
`success` flag, whether the `data`/`items` containers are present, and the
record items themselves. -/
structure PageData (α : Type) where
  success : Bool
  hasItems : Bool
  items : List α

/-- A parsed JSON body of a generic API response (used for the user-info
endpoint): the `success` flag plus an abstract payload. -/
structure ApiResp (α : Type) where
  success : Bool
  payload : α

namespace NASClient

/-- `NASClient.ERROR_MESSAGES`: the ten known server error codes and their
human-readable causes (module/api.py lines 20-31). -/
def ERROR_MESSAGES (code : Nat) : Option String :=
  if code = 400 then some "沒有該帳號或密碼錯誤"
  else if code = 401 then some "帳戶已禁用"
  else if code = 402 then some "權限不足"
  else if code = 403 then some "需要雙重驗證碼"
  else if code = 404 then some "雙重驗證失敗"
  else if code = 406 then some "必須啟用雙重驗證"
  else if code = 407 then some "IP被封鎖"
  else if code = 408 then some "密碼過期且無法更改"
  else if code = 409 then some "密碼已過期"
  else if code = 410 then some "必須更改密碼"
  else none

/-- `NASClient.get_error_message` (module/api.py lines 58-68): catalog lookup
with a generic unknown-error fallback embedding the code; the code itself may
be absent (Python `None`) when a failure response has no `error.code`. -/
def get_error_message (code : Option Nat) : String :=
  match code with
  | some c => (ERROR_MESSAGES c).getD ("未知錯誤 (代碼: " ++ toString c ++ ")")
  | none => "未知錯誤 (代碼: None)"

/-- The body of a login response once transport succeeded: either
`data.sid` is present, or it is not and `error.code` may be present. -/
inductive LoginResp where
  | withSid (sid : String)
  | withError (code : Option Nat)

/-- Observable outcome of one `login` call: the returned value or raised
error, the stored token afterwards, and how many times each of the two
UI-clearing callbacks was invoked. -/
structure LoginResult where
  result : Except String String
  sid : Option String
  pwdCleared : Nat
  otpCleared : Nat

/-- `NASClient.login` (module/api.py lines 70-115), given the parsed response
body. On `data.sid` the token is stored and returned. Otherwise the catalog
message for `error.code` is raised; codes 400/408/409/410 invoke the
password-clearing callback when supplied, else codes 404/406 invoke the
OTP-clearing callback when supplied; the stored token is not touched. -/
def login (c : ClientState) (resp : LoginResp) (hasPwdCb hasOtpCb : Bool) : LoginResult :=
  match resp with
  | .withSid s => ⟨.ok s, some s, 0, 0⟩
  | .withError code =>
    let msg := get_error_message code
    if (code == some 400 || code == some 408 || code == some 409 || code == some 410)
        && hasPwdCb then
      ⟨.error msg, c.sid, 1, 0⟩
    else if (code == some 404 || code == some 406) && hasOtpCb then
      ⟨.error msg, c.sid, 0, 1⟩
    else
      ⟨.error msg, c.sid, 0, 0⟩

/-- Observable outcome of one `logout` call: returned value or raised error,
the stored token afterwards, and the number of HTTP requests made. -/
structure LogoutResult where
  result : Except String Bool
  sid : Option String
  attemptsMade : Nat

/-- `NASClient.logout` (module/api.py lines 264-292). With no token it
returns `true` at once without a network call. Otherwise it performs exactly
one HTTP request (the method carries no retry decorator): on `success` it
clears the token and returns `true`; on a server-reported failure it returns
`false` keeping the token; a transport failure is re-raised as an error. The
`server` argument gives the outcome of the i-th attempt, of which only
attempt 1 is ever consumed. -/
def logout (c : ClientState) (server : Nat → NetResult Bool) : LogoutResult :=
  match c.sid with
  | none => ⟨.ok true, none, 0⟩
  | some s =>
    match server 1 with
    | .transport m => ⟨.error ("登出失敗: " ++ m), some s, 1⟩
    | .resp b => if b then ⟨.ok true, none, 1⟩ else ⟨.ok false, some s, 1⟩

/-- `NASClient.fetch_user_info` (module/api.py lines 117-152), one attempt.
With an absent token it raises at once, issuing no request. Otherwise it
issues one request; an application-level `success=false` raises, and a
well-formed success returns the payload. The second component counts the
network requests issued. -/
def fetch_user_info {α : Type} (c : ClientState) (server : NetResult (ApiResp α)) :
    Except String (ApiResp α) × Nat :=
  match c.sid with
  | none => (.error "未登入，請先執行 login 方法", 0)
  | some _ =>
    match server with
    | .transport m => (.error m, 1)
    | .resp d => if d.success then (.ok d, 1) else (.error "API 返回失敗", 1)

/-- `NASClient.fetch_logs_page` (module/api.py lines 154-185), one attempt.
Note: faithfully to the source, it performs no token-presence check — the
request is issued regardless of `c.sid`. The second component counts the
network requests issued (always 1). -/
def fetch_logs_page {α : Type} (c : ClientState) (server : Nat → NetResult (PageData α))
    (limit offset : Nat) : Except String (PageData α) × Nat :=
  match c.sid, server offset with
  | _, .transport m => (.error m, 1)
  | _, .resp d => if d.success then (.ok d, 1) else (.error "API 返回失敗", 1)

/-- The `while True` pagination loop of `NASClient.fetch_all_logs`
(module/api.py lines 208-227): fetch the page at `offset`, fail (wrapping the
cause) on transport/application errors or a missing items container, extend
the accumulator, stop when a page is shorter than `limit`, else continue at
`offset + limit`. `fuel` bounds the modelled recursion; `none` means the run
did not finish within `fuel` pages. The second component lists the offsets
actually requested, in order. -/
def fetch_all_logs_loop {α : Type} (server : Nat → NetResult (PageData α)) (limit : Nat) :
    Nat → Nat → Option (Except String (List α) × List Nat)
  | 0, _ => none
  | fuel + 1, offset =>
    match server offset with
    | .transport m => some (.error ("獲取日誌失敗: " ++ m), [offset])
    | .resp d =>
      if d.success = false then
        some (.error "獲取日誌失敗: API 返回失敗", [offset])
      else if d.hasItems = false then
        some (.error "獲取日誌失敗: 日誌資料結構無效，缺少 data 或 items", [offset])
      else if d.items.length < limit then
        some (.ok d.items, [offset])
      else
        match fetch_all_logs_loop server limit fuel (offset + limit) with
        | none => none
        | some (.ok rest, offs) => some (.ok (d.items ++ rest), offset :: offs)
        | some (.error e, offs) => some (.error e, offset :: offs)

/-- `NASClient.fetch_all_logs` (module/api.py lines 187-234): with an absent
token it raises `未登入` at once, issuing no request; otherwise it runs the
pagination loop from offset 0. -/
def fetch_all_logs {α : Type} (c : ClientState) (server : Nat → NetResult (PageData α))
    (limit fuel : Nat) : Option (Except String (List α) × List Nat) :=
  match c.sid with
  | none => some (.error "未登入", [])
  | some _ => fetch_all_logs_loop server limit fuel 0

/-- Outcome of one attempt of a retried network operation as classified by
the `tenacity` decorator: a `requests.RequestException` (retried), any other
raised exception (not retried), or a returned value. -/
inductive AttemptResult (α : Type) where
  | transportErr (msg : String)
  | appError (msg : String)
  | ok (a : α)

/-- Failure of a whole retried operation: the retry budget was exhausted by
transport failures, or an application-level error was raised (never
retried). -/
inductive RetryFailure where
  | exhausted (lastMsg : String)
  | app (msg : String)

/-- Observable outcome of a retried operation: the final result, the number
of attempts actually made, and the total time spent pausing between
attempts. -/
structure OpResult (α : Type) where
  result : Except RetryFailure α
  attemptsMade : Nat
  totalWait : Nat

/-- One step of the tenacity retry driver: run attempt `i` with `r` attempts
of budget remaining; a transport failure with budget left pauses 2 time
units and retries, any other outcome is final. -/
def retry_go {α : Type} (f : Nat → AttemptResult α) : Nat → Nat → OpResult α
  | _, 0 => ⟨.error (.exhausted ""), 0, 0⟩
  | i, r + 1 =>
    match f i with
    | .ok a => ⟨.ok a, 1, 0⟩
    | .appError m => ⟨.error (.app m), 1, 0⟩
    | .transportErr m =>
      if r = 0 then ⟨.error (.exhausted m), 1, 0⟩
      else
        let o := retry_go f (i + 1) r
        ⟨o.result, o.attemptsMade + 1, o.totalWait + 2⟩

/-- The `@retry(stop=stop_after_attempt(3), wait=wait_fixed(2),
retry=retry_if_exception_type(requests.RequestException))` decorator
(module/api.py lines 70, 117, 154, 187, 236, 250): up to 3 attempts, fixed
2-unit pause between attempts. -/
def tenacity_retry {α : Type} (f : Nat → AttemptResult α) : OpResult α :=
  retry_go f 1 3

/-- The decorated `fetch_logs_page` as the caller sees it: each attempt
either transport-fails (retried) or yields a response whose `success=false`
raises a plain exception (not retried). -/
def fetch_logs_page_retried {α : Type} (server : Nat → NetResult (PageData α)) :
    OpResult (PageData α) :=
  tenacity_retry (fun i =>
    match server i with
    | .transport m => .transportErr m
    | .resp d => if d.success then .ok d else .appError "API 返回失敗")

end NASClient

/-! ### System log aggregator (module/system_log.py) -/

/-- One normalized system-log record, keyed by the fixed display schema
優先層級 / 日誌 / 時間 / 使用者 / 事件. -/
structure SysEntry where
  priorityLevel : String
  logKind : String
  time : String
  user : String
  event : String

/-- A raw system-log record as received from the server: each required field
may be absent. -/
structure RawSys where
  level : Option String
  time : Option String
  who : Option String
  descr : Option String

/-- Result of a buffer flush: the returned value or raised error, the buffer
afterwards, and the number of file writes attempted. -/
structure SaveResult (ε : Type) where
  result : Except String Bool
  buffer : List ε
  writes : Nat

namespace System_Log

/-- `System_Log.PRIORITY_MAPPING` (module/system_log.py lines 16-20). -/
def PRIORITY_MAPPING (s : String) : Option String :=
  if s = "info" then some "資訊"
  else if s = "warn" then some "警告"
  else if s = "error" then some "錯誤"
  else none

/-- `System_Log.map_priority` (module/system_log.py lines 42-52): lowercase
lookup with 未知事件 fallback. -/
def map_priority (level : String) : String :=
  (PRIORITY_MAPPING (toLowerStr level)).getD "未知事件"

/-- `System_Log.add_log` (module/system_log.py lines 54-79): checks the
required keys level, time, who, descr in that order, raising an error naming
the first missing one; with all present it appends one normalized record. -/
def add_log (logs : List SysEntry) (log : RawSys) : Except String (List SysEntry) :=
  match log.level with
  | none => .error "添加日誌失敗: 項目遺失: level"
  | some lv =>
    match log.time with
    | none => .error "添加日誌失敗: 項目遺失: time"
    | some t =>
      match log.who with
      | none => .error "添加日誌失敗: 項目遺失: who"
      | some w =>
        match log.descr with
        | none => .error "添加日誌失敗: 項目遺失: descr"
        | some d => .ok (logs ++ [⟨map_priority lv, "System", t, w, d⟩])

/-- `System_Log.save_to_file` (module/system_log.py lines 81-99): an empty
buffer returns `false` with no write attempted; otherwise one write is
attempted and the buffer is cleared exactly when it succeeded, a failing
write raising an error and leaving the buffer unchanged. -/
def save_to_file (logs : List SysEntry) (writeOk : Bool) : SaveResult SysEntry :=
  if logs.isEmpty then ⟨.ok false, logs, 0⟩
  else if writeOk then ⟨.ok true, [], 1⟩
  else ⟨.error "保存日誌失敗", logs, 1⟩

end System_Log

/-! ### File-station log aggregator (module/filestation_log.py) -/

/-- One normalized file-station record, keyed by the fixed display schema
日誌 / 時間 / IP位址 / 使用者 / 事件 / 檔案-資料夾 / 檔案大小 / 檔案名稱. -/
structure FsEntry where
  logKind : String
  time : String
  ip : String
  user : String
  event : String
  fileOrFolder : String
  fileSize : String
  fileName : String

/-- A raw file-station record as received from the server: every field may
be absent; per the claim's scope all present values are strings. -/
structure RawFs where
  time : Option String
  ip : Option String
  username : Option String
  cmd : Option String
  isdir : Option String
  filesize : Option String
  descr : Option String

namespace FilesStation_Log

/-- `FilesStation_Log.EVENT_MAPPING` (module/filestation_log.py lines
16-27). -/
def EVENT_MAPPING (s : String) : Option String :=
  if s = "upload" then some "上傳"
  else if s = "download" then some "下載"
  else if s = "delete" then some "刪除"
  else if s = "rename" then some "重新命名"
  else if s = "move" then some "移動"
  else if s = "copy" then some "複製"
  else if s = "create folder" then some "建立資料夾"
  else if s = "extract" then some "解壓縮"
  else if s = "compress" then some "壓縮"
  else if s = "property set" then some "設定屬性"
  else none

/-- `FilesStation_Log.map_event` (module/filestation_log.py lines 49-59):
lowercase lookup with 未知事件 fallback. -/
def map_event (cmd : String) : String :=
  (EVENT_MAPPING (toLowerStr cmd)).getD "未知事件"

/-- `FilesStation_Log.add_log` (module/filestation_log.py lines 61-85):
every missing field defaults to "N/A", the directory flag yields the 資料夾
label exactly when its lowercased string form is "true" (default "False"),
the verb goes through `map_event`, and exactly one record is appended. -/
def add_log (logs : List FsEntry) (log : RawFs) : List FsEntry :=
  let isdir := toLowerStr (log.isdir.getD "False") == "true"
  logs ++ [⟨"FileStation",
            log.time.getD "N/A",
            log.ip.getD "N/A",
            log.username.getD "N/A",
            map_event (log.cmd.getD "N/A"),
            if isdir then "資料夾" else "檔案",
            log.filesize.getD "N/A",
            log.descr.getD "N/A"⟩]

/-- `FilesStation_Log.save_to_file` (module/filestation_log.py lines
87-105): same flush contract as the system variant. -/
def save_to_file (logs : List FsEntry) (writeOk : Bool) : SaveResult FsEntry :=
  if logs.isEmpty then ⟨.ok false, logs, 0⟩
  else if writeOk then ⟨.ok true, [], 1⟩
  else ⟨.error "保存日誌失敗", logs, 1⟩

end FilesStation_Log

/-! ### Ranking export (module/ranking_log.py) -/

/-- One buffered ranking row (`Ranking_Log.add_log` stores rank, user, count,
name, email and the category tag 類型). -/
structure RankEntry where
  rank : String
  user : String
  count : String
  name : String
  email : String
  rtype : String

namespace Ranking_Log

/-- `Ranking_Log.save_to_excel` (module/ranking_log.py lines 66-140): an
empty buffer returns `false` without writing; otherwise the default sheet is
removed (line 82) and the loop over the three fixed categories
upload/download/delete (lines 101-105) creates one labeled sheet per
category having at least one buffered row of that 類型 (a category whose
selection `df[df["類型"] == ranking_type]` is empty is skipped). When no
sheet at all was created, `workbook.save` on the sheetless openpyxl workbook
deterministically raises (at least one sheet must be visible), which the
method wraps into 保存排行榜日誌失敗, leaving the buffer unchanged. With at
least one sheet, `writeOk` models the file-system outcome of the save: on
success the buffer is cleared and `true` returned, a failing write raises
the same wrapped error keeping the buffer. The third component lists the
sheet labels created, in loop order. -/
def save_to_excel (logs : List RankEntry) (writeOk : Bool) :
    Except String Bool × List RankEntry × List String :=
  if logs.isEmpty then (.ok false, logs, [])
  else
    let sheets :=
      (if logs.any (fun e => e.rtype == "upload") then ["上傳排行榜"] else [])
      ++ (if logs.any (fun e => e.rtype == "download") then ["下載排行榜"] else [])
      ++ (if logs.any (fun e => e.rtype == "delete") then ["刪除排行榜"] else [])
    if sheets.isEmpty then (.error "保存排行榜日誌失敗", logs, sheets)
    else if writeOk then (.ok true, [], sheets)
    else (.error "保存排行榜日誌失敗", logs, sheets)

end Ranking_Log

/-! ### Ranking computation (populate_rankings, module/main.py lines 832-873) -/

/-- The slice of one normalized file-station record that the ranking
computation reads: the 使用者 and 事件 columns. -/
structure FsRecord where
  user : String
  event : String

/-- Insertion into a list kept ascending by `strLe` (models the key-ordering
of `groupby(sort=True)`). -/
def insertAsc (x : String) : List String → List String
  | [] => [x]
  | y :: ys => if strLe x y then x :: y :: ys else y :: insertAsc x ys

/-- Ascending insertion sort by `strLe`. -/
def sortAsc : List String → List String
  | [] => []
  | x :: xs => insertAsc x (sortAsc xs)

/-- Stable insertion of a (user, count) pair into a list kept descending by
count: the inserted element goes in front of the first element whose count
does not exceed its own, so earlier input elements stay first among equal
counts (models `sort_values(ascending=False)` with stable semantics). -/
def insertByCountDesc (x : String × Nat) : List (String × Nat) → List (String × Nat)
  | [] => [x]
  | y :: ys => if y.2 ≤ x.2 then x :: y :: ys else y :: insertByCountDesc x ys

/-- Stable insertion sort, descending by count. -/
def sortByCountDesc : List (String × Nat) → List (String × Nat)
  | [] => []
  | x :: xs => insertByCountDesc x (sortByCountDesc xs)

/-- One category pass of `populate_rankings` (module/main.py lines 845-869):
keep the records whose 事件 contains the category's localized `term`
(`df["事件"].str.contains(event)`), group by 使用者 with the group keys in
ascending order (`groupby` with its default key sort) and count each group
(`size()`), sort descending by count (`sort_values(ascending=False)`), keep
the top 10 (`head(10)`), and emit (rank, user, count) rows with 1-based ranks
(`idx + 1`). -/
def populate_rankings (term : String) (records : List FsRecord) : List (Nat × String × Nat) :=
  let qual := records.filter (fun r => strContains r.event term)
  let users := qual.map (fun r => r.user)
  let grouped := (sortAsc users.dedup).map (fun u => (u, users.count u))
  let ranked := (sortByCountDesc grouped).take 10
  ranked.enum.map (fun p => (p.1 + 1, p.2))

/-- The order in which `populate_rankings` emits its rows: strictly greater
count first, and among equal counts the actor identifiers ascend (the group
keys were sorted ascending and the count sort is stable). -/
abbrev countDescOrder (p q : String × Nat) : Prop :=
  q.2 < p.2 ∨ (p.2 = q.2 ∧ (strLe p.1 q.1 = true ∧ p.1 ≠ q.1))

/-- Strict ascent by actor identifier between two (user, count) pairs. -/
abbrev userAscOrder (p q : String × Nat) : Prop :=
  strLe p.1 q.1 = true ∧ p.1 ≠ q.1

/-! ## Theorems -/

/-- The retry driver never makes more attempts than its remaining budget. -/
theorem retry_go_attempts_le {α : Type} (f : Nat → NASClient.AttemptResult α) :
    ∀ (r i : Nat), (NASClient.retry_go f i r).attemptsMade ≤ r
  | 0, _ => by simp [NASClient.retry_go]
  | r + 1, i => by
    have ih := retry_go_attempts_le f r (i + 1)
    simp only [NASClient.retry_go]
    cases f i with
    | ok a => simp
    | appError m => simp
    | transportErr m =>
      by_cases hr : r = 0
      · simp [hr]
      · simp only [if_neg hr]
        show (NASClient.retry_go f (i + 1) r).attemptsMade + 1 ≤ r + 1
        omega

/-- With a positive budget the retry driver makes at least one attempt. -/
theorem retry_go_attempts_pos {α : Type} (f : Nat → NASClient.AttemptResult α)
    (r i : Nat) (hr : 1 ≤ r) : 1 ≤ (NASClient.retry_go f i r).attemptsMade := by
  cases r with
  | zero => omega
  | succ r =>
    simp only [NASClient.retry_go]
    cases f i with
    | ok a => simp
    | appError m => simp
    | transportErr m =>
      by_cases h0 : r = 0
      · simp [h0]
      · simp only [if_neg h0]
        show 1 ≤ (NASClient.retry_go f (i + 1) r).attemptsMade + 1
        omega

/-- The total pause equals 2 units per retry performed. -/
theorem retry_go_wait {α : Type} (f : Nat → NASClient.AttemptResult α) :
    ∀ (r i : Nat),
      (NASClient.retry_go f i r).totalWait = 2 * ((NASClient.retry_go f i r).attemptsMade - 1)
  | 0, _ => by simp [NASClient.retry_go]
  | r + 1, i => by
    have ih := retry_go_wait f r (i + 1)
    simp only [NASClient.retry_go]
    cases f i with
    | ok a => simp
    | appError m => simp
    | transportErr m =>
      by_cases hr : r = 0
      · simp [hr]
      · have hpos := retry_go_attempts_pos f r (i + 1) (by omega)
        simp only [if_neg hr]
        show (NASClient.retry_go f (i + 1) r).totalWait + 2
          = 2 * ((NASClient.retry_go f (i + 1) r).attemptsMade + 1 - 1)
        omega

/-- C2 counterexample: a page fetch issued with an absent session token is
not rejected — it performs its network request anyway (1 request issued) and
can even return a successful page, contradicting the claim that every
authenticated operation fails immediately without a network call. -/
theorem fetch_logs_page_no_auth_check :
    NASClient.fetch_logs_page (α := Unit) ⟨none⟩ (fun _ => .resp ⟨true, true, []⟩) 1000 0
      = (.ok ⟨true, true, []⟩, 1) := rfl

/-- C2 (amended): with an absent session token, fetch_user_info and
fetch_all_logs fail immediately with a not-authenticated error and issue
zero network requests; fetch_logs_page performs no token check and issues
its request regardless. -/
theorem unauthenticated_ops {α β : Type} (userServer : NetResult (ApiResp α))
    (pageServer : Nat → NetResult (PageData β)) (limit offset fuel : Nat) :
    NASClient.fetch_user_info ⟨none⟩ userServer = (.error "未登入，請先執行 login 方法", 0)
    ∧ NASClient.fetch_all_logs ⟨none⟩ pageServer limit fuel = some (.error "未登入", [])
    ∧ (NASClient.fetch_logs_page ⟨none⟩ pageServer limit offset).2 = 1 := by
  refine ⟨rfl, rfl, ?_⟩
  simp only [NASClient.fetch_logs_page]
  cases pageServer offset with
  | transport m => rfl
  | resp d => by_cases h : d.success <;> simp [h]

/-- C3 counterexample: logout carries no retry decorator. With a transport
failure on attempt 1 (and a server that would succeed from attempt 2 on),
logout surfaces the error after exactly one attempt instead of retrying,
contradicting the claim that every network operation, logout included,
makes up to 3 attempts retrying transport-level failures. -/
theorem logout_does_not_retry :
    NASClient.logout ⟨some "sid0"⟩
        (fun i => if i = 1 then .transport "connection timeout" else .resp true)
      = ⟨.error "登出失敗: connection timeout", some "sid0", 1⟩ := rfl

/-- C3 (amended): the retried operations (login, fetch_user_info,
fetch_logs_page and the aggregate fetches) make up to 3 attempts total with
a fixed 2-time-unit pause between attempts, retry only transport-level
failures — an application-level failure or a success on attempt 1 ends the
run at once — and a page fetch whose transport fails on attempts 1 and 2 but
succeeds on attempt 3 returns the successful result with no error surfaced;
logout is the exception: it makes exactly one attempt and surfaces a
transport-level failure immediately. -/
theorem retry_policy_and_logout {α : Type} :
    (∀ f : Nat → NASClient.AttemptResult α, (NASClient.tenacity_retry f).attemptsMade ≤ 3)
    ∧ (∀ f : Nat → NASClient.AttemptResult α,
        (NASClient.tenacity_retry f).totalWait
          = 2 * ((NASClient.tenacity_retry f).attemptsMade - 1))
    ∧ (∀ (m : String) (f : Nat → NASClient.AttemptResult α),
        NASClient.tenacity_retry (fun i => if i = 1 then .appError m else f i)
          = ⟨.error (.app m), 1, 0⟩)
    ∧ (∀ (a : α) (f : Nat → NASClient.AttemptResult α),
        NASClient.tenacity_retry (fun i => if i = 1 then .ok a else f i) = ⟨.ok a, 1, 0⟩)
    ∧ (∀ (m₁ m₂ : String) (hasI : Bool) (its : List α),
        NASClient.fetch_logs_page_retried
            (fun i => if i = 1 then .transport m₁
                      else if i = 2 then .transport m₂
                      else .resp ⟨true, hasI, its⟩)
          = ⟨.ok ⟨true, hasI, its⟩, 3, 4⟩)
    ∧ (∀ (s m : String) (srv : Nat → NetResult Bool),
        NASClient.logout ⟨some s⟩ (fun i => if i = 1 then .transport m else srv i)
          = ⟨.error ("登出失敗: " ++ m), some s, 1⟩) := by
  refine ⟨fun f => retry_go_attempts_le f 3 1, fun f => retry_go_wait f 3 1,
    fun m f => rfl, fun a f => rfl, fun m₁ m₂ hasI its => rfl, fun s m srv => rfl⟩

/-- One-step unfolding of `save_to_excel` on a nonempty buffer, exposing the
sheet computation and the sheetless-save failure branch. -/
theorem save_to_excel_cons (e : RankEntry) (es : List RankEntry) (w : Bool) :
    Ranking_Log.save_to_excel (e :: es) w
      = (let sheets :=
          (if (e :: es).any (fun x => x.rtype == "upload") then ["上傳排行榜"] else [])
          ++ (if (e :: es).any (fun x => x.rtype == "download") then ["下載排行榜"] else [])
          ++ (if (e :: es).any (fun x => x.rtype == "delete") then ["刪除排行榜"] else [])
        if sheets.isEmpty then (.error "保存排行榜日誌失敗", e :: es, sheets)
        else if w then (.ok true, [], sheets)
        else (.error "保存排行榜日誌失敗", e :: es, sheets)) := rfl

/-- C8 counterexample: a nonempty buffer whose only row belongs to none of
the three categories creates no sheet, and the save of the sheetless
workbook raises the wrapped export error with the buffer unchanged — it
does not succeed with a workbook with no data sheets. -/
theorem ranking_export_empty_counterexample :
    Ranking_Log.save_to_excel [⟨"1", "u", "1", "n", "e", "other"⟩] true
      = (.error "保存排行榜日誌失敗", [⟨"1", "u", "1", "n", "e", "other"⟩], []) := rfl

/-- C8 (amended): ranking export with an empty buffer returns `false` with
no workbook; with a nonempty buffer it creates exactly one labeled sheet
per category having at least one buffered row of that category (zero-row
categories are skipped); when at least one category is populated the save
succeeds and clears the buffer, but when all three categories are empty no
sheet is created and saving the sheetless workbook raises the wrapped
export error, leaving the buffer unchanged — it does not succeed. -/
theorem ranking_export_sheets (e : RankEntry) (es : List RankEntry) (w : Bool) :
    Ranking_Log.save_to_excel [] w = (.ok false, [], [])
    ∧ ((e :: es).any (fun x => x.rtype == "upload") = true
        ↔ "上傳排行榜" ∈ (Ranking_Log.save_to_excel (e :: es) w).2.2)
    ∧ ((e :: es).any (fun x => x.rtype == "download") = true
        ↔ "下載排行榜" ∈ (Ranking_Log.save_to_excel (e :: es) w).2.2)
    ∧ ((e :: es).any (fun x => x.rtype == "delete") = true
        ↔ "刪除排行榜" ∈ (Ranking_Log.save_to_excel (e :: es) w).2.2)
    ∧ (((e :: es).any (fun x => x.rtype == "upload")
          || (e :: es).any (fun x => x.rtype == "download")
          || (e :: es).any (fun x => x.rtype == "delete")) = true →
        (Ranking_Log.save_to_excel (e :: es) true).1 = .ok true
        ∧ (Ranking_Log.save_to_excel (e :: es) true).2.1 = [])
    ∧ ((∀ x ∈ e :: es, x.rtype ≠ "upload" ∧ x.rtype ≠ "download" ∧ x.rtype ≠ "delete") →
        Ranking_Log.save_to_excel (e :: es) w
          = (.error "保存排行榜日誌失敗", e :: es, [])) := by
  refine ⟨rfl, ?_, ?_, ?_, ?_, ?_⟩
  · rw [save_to_excel_cons]
    cases (e :: es).any (fun x => x.rtype == "upload") <;>
    cases (e :: es).any (fun x => x.rtype == "download") <;>
    cases (e :: es).any (fun x => x.rtype == "delete") <;>
    cases w <;> simp
  · rw [save_to_excel_cons]
    cases (e :: es).any (fun x => x.rtype == "upload") <;>
    cases (e :: es).any (fun x => x.rtype == "download") <;>
    cases (e :: es).any (fun x => x.rtype == "delete") <;>
    cases w <;> simp
  · rw [save_to_excel_cons]
    cases (e :: es).any (fun x => x.rtype == "upload") <;>
    cases (e :: es).any (fun x => x.rtype == "download") <;>
    cases (e :: es).any (fun x => x.rtype == "delete") <;>
    cases w <;> simp
  · intro hor
    rw [save_to_excel_cons]
    revert hor
    cases (e :: es).any (fun x => x.rtype == "upload") <;>
    cases (e :: es).any (fun x => x.rtype == "download") <;>
    cases (e :: es).any (fun x => x.rtype == "delete") <;>
    intro hor <;> simp at hor ⊢
  · intro h
    have hu : (e :: es).any (fun x => x.rtype == "upload") = false := by
      simp only [List.any_eq_false]
      intro x hx2
      simpa using (h x hx2).1
    have hd : (e :: es).any (fun x => x.rtype == "download") = false := by
      simp only [List.any_eq_false]
      intro x hx2
      simpa using (h x hx2).2.1
    have hx : (e :: es).any (fun x => x.rtype == "delete") = false := by
      simp only [List.any_eq_false]
      intro x hx2
      simpa using (h x hx2).2.2
    rw [save_to_excel_cons, hu, hd, hx]
    simp

/-- C8 witness: a single upload row exports successfully clearing the
buffer, and a single untracked-category row makes the save raise with the
buffer kept. -/
theorem ranking_export_sheets_witness :
    ((Ranking_Log.save_to_excel [⟨"1", "u", "1", "n", "e", "upload"⟩] true).1 = .ok true
      ∧ (Ranking_Log.save_to_excel [⟨"1", "u", "1", "n", "e", "upload"⟩] true).2.1 = [])
    ∧ Ranking_Log.save_to_excel [⟨"1", "u", "1", "n", "e", "other"⟩] true
        = (.error "保存排行榜日誌失敗", [⟨"1", "u", "1", "n", "e", "other"⟩], []) := by
  have h1 := ranking_export_sheets ⟨"1", "u", "1", "n", "e", "upload"⟩ [] true
  have h2 := ranking_export_sheets ⟨"1", "u", "1", "n", "e", "other"⟩ [] true
  exact ⟨h1.2.2.2.2.1 (by decide), h2.2.2.2.2.2 (by decide)⟩

/-- C10: the file-station aggregator's add is total on records whose fields
are strings or absent: it appends exactly one record preserving the buffer
prefix, every absent field is read as the literal "N/A" (the stored event
for an absent verb being the unknown label that "N/A" maps to), the
directory flag yields the folder label exactly when its lowercased string
form equals "true" (the file label otherwise, in particular when absent),
and an unrecognized verb maps to the localized unknown label. -/
theorem filestation_add_log_total (logs : List FsEntry) (raw : RawFs) (dflt : FsEntry) :
    (FilesStation_Log.add_log logs raw).length = logs.length + 1
    ∧ (FilesStation_Log.add_log logs raw).take logs.length = logs
    ∧ ((FilesStation_Log.add_log logs raw).getLastD dflt).fileOrFolder
        = (if toLowerStr (raw.isdir.getD "False") == "true" then "資料夾" else "檔案")
    ∧ (raw.isdir = none →
        ((FilesStation_Log.add_log logs raw).getLastD dflt).fileOrFolder = "檔案")
    ∧ (raw.time = none → ((FilesStation_Log.add_log logs raw).getLastD dflt).time = "N/A")
    ∧ (raw.ip = none → ((FilesStation_Log.add_log logs raw).getLastD dflt).ip = "N/A")
    ∧ (raw.username = none → ((FilesStation_Log.add_log logs raw).getLastD dflt).user = "N/A")
    ∧ (raw.filesize = none →
        ((FilesStation_Log.add_log logs raw).getLastD dflt).fileSize = "N/A")
    ∧ (raw.descr = none → ((FilesStation_Log.add_log logs raw).getLastD dflt).fileName = "N/A")
    ∧ (raw.cmd = none → ((FilesStation_Log.add_log logs raw).getLastD dflt).event = "未知事件")
    ∧ (∀ v, raw.cmd = some v → FilesStation_Log.EVENT_MAPPING (toLowerStr v) = none →
        ((FilesStation_Log.add_log logs raw).getLastD dflt).event = "未知事件") := by
  have key : FilesStation_Log.add_log logs raw
      = logs ++ [⟨"FileStation", raw.time.getD "N/A", raw.ip.getD "N/A", raw.username.getD "N/A",
         FilesStation_Log.map_event (raw.cmd.getD "N/A"),
         if toLowerStr (raw.isdir.getD "False") == "true" then "資料夾" else "檔案",
         raw.filesize.getD "N/A", raw.descr.getD "N/A"⟩] := rfl
  have last : (FilesStation_Log.add_log logs raw).getLastD dflt
      = ⟨"FileStation", raw.time.getD "N/A", raw.ip.getD "N/A", raw.username.getD "N/A",
         FilesStation_Log.map_event (raw.cmd.getD "N/A"),
         if toLowerStr (raw.isdir.getD "False") == "true" then "資料夾" else "檔案",
         raw.filesize.getD "N/A", raw.descr.getD "N/A"⟩ := by
    rw [key]
    exact List.getLastD_concat _ _ _
  refine ⟨?_, ?_, by rw [last], ?_, ?_, ?_, ?_, ?_, ?_, ?_, ?_⟩
  · rw [key]
    simp
  · rw [key]
    exact List.take_left logs _
  · intro h
    rw [last]
    simp only [h]
    decide
  · intro h
    rw [last]
    simp [h]
  · intro h
    rw [last]
    simp [h]
  · intro h
    rw [last]
    simp [h]
  · intro h
    rw [last]
    simp [h]
  · intro h
    rw [last]
    simp [h]
  · intro h
    rw [last]
    simp only [h]
    decide
  · intro v hv hmap
    rw [last]
    simp [hv, FilesStation_Log.map_event, hmap]

/-- C10 witness: an all-absent record with an unrecognized verb is appended
without error, carrying the unknown-event and file labels. -/
theorem filestation_add_log_total_witness :
    (FilesStation_Log.add_log [] ⟨none, none, none, some "xyz", none, none, none⟩).length = 1
    ∧ ((FilesStation_Log.add_log [] ⟨none, none, none, some "xyz", none, none, none⟩).getLastD
        ⟨"", "", "", "", "", "", "", ""⟩).event = "未知事件"
    ∧ ((FilesStation_Log.add_log [] ⟨none, none, none, some "xyz", none, none, none⟩).getLastD
        ⟨"", "", "", "", "", "", "", ""⟩).fileOrFolder = "檔案" := by
  have h := filestation_add_log_total [] ⟨none, none, none, some "xyz", none, none, none⟩
    ⟨"", "", "", "", "", "", "", ""⟩
  exact ⟨h.1, h.2.2.2.2.2.2.2.2.2.2 "xyz" rfl (by decide), h.2.2.2.1 rfl⟩

/-- C4: login with a response containing `data.sid` returns that token and
the stored token equals it afterwards; login with `error.code=400` (password
callback supplied) fails with the catalog's message 沒有該帳號或密碼錯誤,
invokes the password-clearing callback exactly once and the OTP callback
never, and leaves the stored token unchanged. -/
theorem login_token_and_callbacks (c : ClientState) (s : String) (b₁ b₂ b₃ : Bool) :
    NASClient.login c (.withSid s) b₁ b₂ = ⟨.ok s, some s, 0, 0⟩
    ∧ NASClient.login c (.withError (some 400)) true b₃
        = ⟨.error "沒有該帳號或密碼錯誤", c.sid, 1, 0⟩ :=
  ⟨rfl, rfl⟩

/-- C5: logout with no stored token returns `true` with zero network
requests; with a token, a server-reported success clears the token and
returns `true`, a server-reported failure returns `false` without raising
and without clearing the token, and a transport-level failure raises. -/
theorem logout_contract (s m : String) (srv : Nat → NetResult Bool) :
    NASClient.logout ⟨none⟩ srv = ⟨.ok true, none, 0⟩
    ∧ NASClient.logout ⟨some s⟩ (fun _ => .resp true) = ⟨.ok true, none, 1⟩
    ∧ NASClient.logout ⟨some s⟩ (fun _ => .resp false) = ⟨.ok false, some s, 1⟩
    ∧ NASClient.logout ⟨some s⟩ (fun _ => .transport m)
        = ⟨.error ("登出失敗: " ++ m), some s, 1⟩ :=
  ⟨rfl, rfl, rfl, rfl⟩

/-- C6: for both aggregators, flushing an empty buffer returns `false` with
no write attempted; a successful flush empties the buffer; a failing write
raises and leaves the buffer exactly as it was. -/
theorem flush_contract (e : SysEntry) (es : List SysEntry) (f : FsEntry) (fs : List FsEntry) :
    System_Log.save_to_file [] true = ⟨.ok false, [], 0⟩
    ∧ System_Log.save_to_file [] false = ⟨.ok false, [], 0⟩
    ∧ System_Log.save_to_file (e :: es) true = ⟨.ok true, [], 1⟩
    ∧ System_Log.save_to_file (e :: es) false = ⟨.error "保存日誌失敗", e :: es, 1⟩
    ∧ FilesStation_Log.save_to_file [] true = ⟨.ok false, [], 0⟩
    ∧ FilesStation_Log.save_to_file [] false = ⟨.ok false, [], 0⟩
    ∧ FilesStation_Log.save_to_file (f :: fs) true = ⟨.ok true, [], 1⟩
    ∧ FilesStation_Log.save_to_file (f :: fs) false = ⟨.error "保存日誌失敗", f :: fs, 1⟩ :=
  ⟨rfl, rfl, rfl, rfl, rfl, rfl, rfl, rfl⟩

/-- C9: the system aggregator's add checks level, time, who, descr in that
order and raises an error naming the first missing field; with all four
present it appends exactly one normalized record without raising. -/
theorem system_add_log_validation (logs : List SysEntry) (lv t w d : String)
    (ot ow od : Option String) :
    System_Log.add_log logs ⟨none, ot, ow, od⟩ = .error "添加日誌失敗: 項目遺失: level"
    ∧ System_Log.add_log logs ⟨some lv, none, ow, od⟩ = .error "添加日誌失敗: 項目遺失: time"
    ∧ System_Log.add_log logs ⟨some lv, some t, none, od⟩ = .error "添加日誌失敗: 項目遺失: who"
    ∧ System_Log.add_log logs ⟨some lv, some t, some w, none⟩
        = .error "添加日誌失敗: 項目遺失: descr"
    ∧ System_Log.add_log logs ⟨some lv, some t, some w, some d⟩
        = .ok (logs ++ [⟨System_Log.map_priority lv, "System", t, w, d⟩])
    ∧ (logs ++ [(⟨System_Log.map_priority lv, "System", t, w, d⟩ : SysEntry)]).length
        = logs.length + 1 :=
  ⟨rfl, rfl, rfl, rfl, rfl, by simp⟩

/-- Splitting one step off the arithmetic offset sequence off, off+L, off+2L, …. -/
theorem range_map_mul_succ (off limit n : Nat) :
    (List.range (n + 1)).map (fun k => off + k * limit)
      = off :: (List.range n).map (fun k => (off + limit) + k * limit) := by
  rw [List.range_succ_eq_map, List.map_cons, List.map_map]
  refine congrArg₂ List.cons (by omega) ?_
  refine List.map_congr_left (fun a _ => ?_)
  simp only [Function.comp_apply, Nat.succ_eq_add_one]
  ring

/-- The pagination loop of fetch_all_logs on an all-successful server that
serves the page list `ps` at consecutive offsets starting from `off`: with
every page but the last of exactly `limit` records and a short last page, it
requests exactly the offsets off, off+L, …, off+(n-1)L in order, stops at the
short page, and returns all pages concatenated in arrival order. -/
theorem fetch_all_logs_loop_ok {α : Type} (limit : Nat) :
    ∀ (ps : List (List α)) (server : Nat → NetResult (PageData α)) (off : Nat),
      ps ≠ [] →
      (∀ k, k < ps.length → server (off + k * limit) = .resp ⟨true, true, ps.getD k []⟩) →
      (∀ i, i + 1 < ps.length → (ps.getD i []).length = limit) →
      (ps.getD (ps.length - 1) []).length < limit →
      NASClient.fetch_all_logs_loop server limit ps.length off
        = some (.ok ps.flatten, (List.range ps.length).map (fun k => off + k * limit))
  | [], _, _, hne, _, _, _ => absurd rfl hne
  | [p], server, off, _, hserve, _, hlast => by
    have h0 := hserve 0 (by simp)
    simp only [Nat.zero_mul, Nat.add_zero, List.getD_cons_zero] at h0
    simp only [List.length_cons, List.length_nil, Nat.zero_add, Nat.sub_self,
      List.getD_cons_zero] at hlast
    show NASClient.fetch_all_logs_loop server limit (0 + 1) off = _
    simp only [NASClient.fetch_all_logs_loop, h0]
    simp [hlast, List.range_succ]
  | p :: q :: rest, server, off, _, hserve, hfull, hlast => by
    have h0 := hserve 0 (by simp)
    simp only [Nat.zero_mul, Nat.add_zero, List.getD_cons_zero] at h0
    have hp : p.length = limit := by
      have hh := hfull 0 (by simp)
      simpa using hh
    have hserve2 : ∀ k, k < (q :: rest).length →
        server ((off + limit) + k * limit) = .resp ⟨true, true, (q :: rest).getD k []⟩ := by
      intro k hk
      have hh := hserve (k + 1) (by simp only [List.length_cons] at hk ⊢; omega)
      have e : off + (k + 1) * limit = (off + limit) + k * limit := by ring
      rw [e] at hh
      simpa [List.getD_cons_succ] using hh
    have hfull2 : ∀ i, i + 1 < (q :: rest).length →
        ((q :: rest).getD i []).length = limit := by
      intro i hi
      have hh := hfull (i + 1) (by simp only [List.length_cons] at hi ⊢; omega)
      simpa [List.getD_cons_succ] using hh
    have hlast2 : ((q :: rest).getD ((q :: rest).length - 1) []).length < limit := by
      have hh := hlast
      simp only [List.length_cons, Nat.add_sub_cancel, List.getD_cons_succ] at hh ⊢
      exact hh
    have ih := fetch_all_logs_loop_ok limit (q :: rest) server (off + limit)
      (by simp) hserve2 hfull2 hlast2
    have hnl : ¬ p.length < limit := by omega
    have hstep : NASClient.fetch_all_logs_loop server limit ((q :: rest).length + 1) off
        = (match server off with
          | .transport m => some (.error ("獲取日誌失敗: " ++ m), [off])
          | .resp d =>
            if d.success = false then some (.error "獲取日誌失敗: API 返回失敗", [off])
            else if d.hasItems = false then
              some (.error "獲取日誌失敗: 日誌資料結構無效，缺少 data 或 items", [off])
            else if d.items.length < limit then some (.ok d.items, [off])
            else
              match NASClient.fetch_all_logs_loop server limit (q :: rest).length
                  (off + limit) with
              | none => none
              | some (.ok rest2, offs) => some (.ok (d.items ++ rest2), off :: offs)
              | some (.error e, offs) => some (.error e, off :: offs) :
            Option (Except String (List α) × List Nat)) := rfl
    show NASClient.fetch_all_logs_loop server limit ((q :: rest).length + 1) off = _
    rw [hstep, h0, ih]
    simp only [List.length_cons]
    rw [range_map_mul_succ off limit (rest.length + 1)]
    simp [hnl]

/-- C1: with an active session, on a server whose page at offset kL is the
k-th element of a page list `ps` (each page but the last holding exactly L
records, the last fewer), fetch_all_logs requests exactly the strictly
increasing offsets 0, L, 2L, …, one per page, stops at the first short page,
and returns all pages' records concatenated in arrival order. -/
theorem fetch_all_logs_pagination {α : Type} (s : String) (limit : Nat) (hlim : 0 < limit)
    (ps : List (List α)) (hne : ps ≠ [])
    (hfull : ∀ i, i + 1 < ps.length → (ps.getD i []).length = limit)
    (hlast : (ps.getD (ps.length - 1) []).length < limit) :
    NASClient.fetch_all_logs ⟨some s⟩
        (fun off => .resp ⟨true, true, ps.getD (off / limit) []⟩) limit ps.length
      = some (.ok ps.flatten, (List.range ps.length).map (fun k => k * limit))
    ∧ ((List.range ps.length).map (fun k => k * limit)).Pairwise (· < ·) := by
  constructor
  · have hserve : ∀ k, k < ps.length →
        (fun off => (NetResult.resp ⟨true, true, ps.getD (off / limit) []⟩ :
            NetResult (PageData α))) (0 + k * limit)
          = .resp ⟨true, true, ps.getD k []⟩ := by
      intro k hk
      show (NetResult.resp ⟨true, true, ps.getD ((0 + k * limit) / limit) []⟩ :
          NetResult (PageData α)) = _
      rw [Nat.zero_add, Nat.mul_div_cancel k hlim]
    have h := fetch_all_logs_loop_ok limit ps
      (fun off => .resp ⟨true, true, ps.getD (off / limit) []⟩) 0 hne hserve hfull hlast
    have hmap : (List.range ps.length).map (fun k => 0 + k * limit)
        = (List.range ps.length).map (fun k => k * limit) :=
      List.map_congr_left (fun a _ => by omega)
    have hopen : NASClient.fetch_all_logs (α := α) ⟨some s⟩
        (fun off => .resp ⟨true, true, ps.getD (off / limit) []⟩) limit ps.length
        = NASClient.fetch_all_logs_loop
            (fun off => .resp ⟨true, true, ps.getD (off / limit) []⟩) limit ps.length 0 := rfl
    rw [hopen, h, hmap]
  · refine List.Pairwise.map _ (fun a b hab => ?_) (List.pairwise_lt_range ps.length)
    exact (mul_lt_mul_right hlim).mpr hab

/-- C1 witness: a 3-page sequence of sizes [1000, 1000, 400] with page size
1000 is fetched with exactly the requests at offsets 0, 1000, 2000 and
yields the 2400 records in original order. -/
theorem fetch_all_logs_pagination_witness :
    NASClient.fetch_all_logs ⟨some "sid0"⟩
        (fun off => .resp ⟨true, true,
          ([List.replicate 1000 (0 : Nat), List.replicate 1000 1,
            List.replicate 400 2]).getD (off / 1000) []⟩) 1000 3
      = some (.ok ([List.replicate 1000 (0 : Nat), List.replicate 1000 1,
            List.replicate 400 2]).flatten,
          (List.range 3).map (fun k => k * 1000))
    ∧ ([List.replicate 1000 (0 : Nat), List.replicate 1000 1,
          List.replicate 400 2]).flatten.length = 2400
    ∧ (List.range 3).map (fun k => k * 1000) = [0, 1000, 2000] := by
  have h := fetch_all_logs_pagination "sid0" 1000 (by omega)
    [List.replicate 1000 (0 : Nat), List.replicate 1000 1, List.replicate 400 2]
    (List.cons_ne_nil _ _)
    (by
      intro i hi
      simp only [List.length_cons, List.length_nil] at hi
      have hi2 : i < 2 := by omega
      interval_cases i
      · norm_num [List.getD_cons_zero, List.length_replicate]
      · norm_num [List.getD_cons_succ, List.getD_cons_zero, List.length_replicate])
    (by norm_num [List.getD_cons_succ, List.getD_cons_zero, List.length_replicate])
  refine ⟨h.1, ?_, by decide⟩
  norm_num [List.flatten_cons, List.flatten_nil, List.length_append, List.length_replicate]

/-- Unfolding of `lexLe` on two nonempty character lists. -/
theorem lexLe_cons (a b : Char) (as bs : List Char) :
    lexLe (a :: as) (b :: bs) = true
      ↔ (a.toNat < b.toNat ∨ (a.toNat = b.toNat ∧ lexLe as bs = true)) := by
  simp [lexLe]

/-- `lexLe` is total. -/
theorem lexLe_total : ∀ (a b : List Char), lexLe a b = true ∨ lexLe b a = true
  | [], _ => Or.inl rfl
  | _ :: _, [] => Or.inr rfl
  | a :: as, b :: bs => by
    rw [lexLe_cons, lexLe_cons]
    rcases Nat.lt_trichotomy a.toNat b.toNat with h | h | h
    · exact Or.inl (Or.inl h)
    · rcases lexLe_total as bs with ih | ih
      · exact Or.inl (Or.inr ⟨h, ih⟩)
      · exact Or.inr (Or.inr ⟨h.symm, ih⟩)
    · exact Or.inr (Or.inl h)

/-- `lexLe` is transitive. -/
theorem lexLe_trans : ∀ (a b c : List Char),
    lexLe a b = true → lexLe b c = true → lexLe a c = true
  | [], _, _, _, _ => rfl
  | _ :: _, [], _, h, _ => by simp [lexLe] at h
  | _ :: _, _ :: _, [], _, h => by simp [lexLe] at h
  | a :: as, b :: bs, c :: cs, h1, h2 => by
    rw [lexLe_cons] at h1 h2 ⊢
    rcases h1 with h1 | ⟨e1, r1⟩
    · rcases h2 with h2 | ⟨e2, r2⟩
      · exact Or.inl (by omega)
      · exact Or.inl (by omega)
    · rcases h2 with h2 | ⟨e2, r2⟩
      · exact Or.inl (by omega)
      · exact Or.inr ⟨by omega, lexLe_trans as bs cs r1 r2⟩

/-- `strLe` is total. -/
theorem strLe_total (a b : String) : strLe a b = true ∨ strLe b a = true :=
  lexLe_total a.data b.data

/-- `strLe` is transitive. -/
theorem strLe_trans (a b c : String) :
    strLe a b = true → strLe b c = true → strLe a c = true :=
  lexLe_trans a.data b.data c.data

/-- Inserting into a list is a permutation of consing. -/
theorem insertAsc_perm (x : String) : ∀ (l : List String), (insertAsc x l).Perm (x :: l)
  | [] => List.Perm.refl _
  | y :: ys => by
    by_cases hxy : strLe x y = true
    · simp only [insertAsc, if_pos hxy]
      exact List.Perm.refl _
    · simp only [insertAsc, if_neg hxy]
      exact ((insertAsc_perm x ys).cons y).trans (List.Perm.swap x y ys)

/-- `sortAsc` permutes its input. -/
theorem sortAsc_perm : ∀ (l : List String), (sortAsc l).Perm l
  | [] => List.Perm.refl _
  | x :: xs => (insertAsc_perm x (sortAsc xs)).trans ((sortAsc_perm xs).cons x)

/-- Inserting into a `strLe`-sorted list keeps it sorted. -/
theorem insertAsc_pairwise (x : String) :
    ∀ (l : List String), l.Pairwise (fun a b => strLe a b = true) →
      (insertAsc x l).Pairwise (fun a b => strLe a b = true)
  | [], _ => by simp [insertAsc]
  | y :: ys, hl => by
    rw [List.pairwise_cons] at hl
    obtain ⟨hy, hys⟩ := hl
    by_cases hxy : strLe x y = true
    · simp only [insertAsc, if_pos hxy]
      rw [List.pairwise_cons]
      refine ⟨?_, ?_⟩
      · intro z hz
        rcases List.mem_cons.mp hz with rfl | hz2
        · exact hxy
        · exact strLe_trans x y z hxy (hy z hz2)
      · rw [List.pairwise_cons]
        exact ⟨hy, hys⟩
    · simp only [insertAsc, if_neg hxy]
      rw [List.pairwise_cons]
      refine ⟨?_, insertAsc_pairwise x ys hys⟩
      intro z hz
      have hz2 := (insertAsc_perm x ys).mem_iff.mp hz
      rcases List.mem_cons.mp hz2 with rfl | hz3
      · rcases strLe_total z y with h | h
        · exact absurd h hxy
        · exact h
      · exact hy z hz3

/-- `sortAsc` sorts by `strLe`. -/
theorem sortAsc_pairwise : ∀ (l : List String),
    (sortAsc l).Pairwise (fun a b => strLe a b = true)
  | [] => List.Pairwise.nil
  | x :: xs => insertAsc_pairwise x (sortAsc xs) (sortAsc_pairwise xs)

/-- Stable count-descending insertion is a permutation of consing. -/
theorem insertByCountDesc_perm (x : String × Nat) :
    ∀ (l : List (String × Nat)), (insertByCountDesc x l).Perm (x :: l)
  | [] => List.Perm.refl _
  | y :: ys => by
    by_cases hc : y.2 ≤ x.2
    · simp only [insertByCountDesc, if_pos hc]
      exact List.Perm.refl _
    · simp only [insertByCountDesc, if_neg hc]
      exact ((insertByCountDesc_perm x ys).cons y).trans (List.Perm.swap x y ys)

/-- `sortByCountDesc` permutes its input. -/
theorem sortByCountDesc_perm : ∀ (l : List (String × Nat)),
    (sortByCountDesc l).Perm l
  | [] => List.Perm.refl _
  | x :: xs => (insertByCountDesc_perm x (sortByCountDesc xs)).trans
      ((sortByCountDesc_perm xs).cons x)

/-- Stable insertion of an actor strictly below (by name) everything in an
ordered ranking list keeps the list ordered by count-then-name. -/
theorem insertByCountDesc_pairwise (x : String × Nat) :
    ∀ (l : List (String × Nat)), l.Pairwise countDescOrder →
      (∀ y ∈ l, userAscOrder x y) →
      (insertByCountDesc x l).Pairwise countDescOrder
  | [], _, _ => by simp [insertByCountDesc]
  | y :: ys, hl, hx => by
    rw [List.pairwise_cons] at hl
    obtain ⟨hy, hys⟩ := hl
    by_cases hc : y.2 ≤ x.2
    · simp only [insertByCountDesc, if_pos hc]
      rw [List.pairwise_cons]
      refine ⟨?_, ?_⟩
      · intro z hz
        rcases List.mem_cons.mp hz with rfl | hz2
        · rcases Nat.lt_or_ge z.2 x.2 with h | h
          · exact Or.inl h
          · exact Or.inr ⟨by omega, hx z (by simp)⟩
        · rcases hy z hz2 with h | ⟨he, _⟩
          · exact Or.inl (by omega)
          · rcases Nat.lt_or_ge z.2 x.2 with h2 | h2
            · exact Or.inl h2
            · exact Or.inr ⟨by omega, hx z (by simp [hz2])⟩
      · rw [List.pairwise_cons]
        exact ⟨hy, hys⟩
    · simp only [insertByCountDesc, if_neg hc]
      rw [List.pairwise_cons]
      refine ⟨?_, insertByCountDesc_pairwise x ys hys
        (fun z hz => hx z (by simp [hz]))⟩
      intro z hz
      have hz2 := (insertByCountDesc_perm x ys).mem_iff.mp hz
      rcases List.mem_cons.mp hz2 with rfl | hz3
      · exact Or.inl (by omega)
      · exact hy z hz3

/-- Sorting a list of (actor, count) pairs whose actors strictly ascend
produces a list ordered by descending count with name-ascending ties. -/
theorem sortByCountDesc_pairwise :
    ∀ (l : List (String × Nat)), l.Pairwise userAscOrder →
      (sortByCountDesc l).Pairwise countDescOrder
  | [], _ => List.Pairwise.nil
  | x :: xs, hl => by
    rw [List.pairwise_cons] at hl
    obtain ⟨hx, hxs⟩ := hl
    refine insertByCountDesc_pairwise x (sortByCountDesc xs)
      (sortByCountDesc_pairwise xs hxs) ?_
    intro y hy
    exact hx y ((sortByCountDesc_perm xs).mem_iff.mp hy)

/-- The grouping step of `populate_rankings` — sorted deduplicated actors
paired with their counts — has strictly ascending actor identifiers. -/
theorem grouped_pairwise (users : List String) :
    ((sortAsc users.dedup).map (fun u => (u, users.count u))).Pairwise userAscOrder := by
  have hsorted := sortAsc_pairwise users.dedup
  have hnd : (sortAsc users.dedup).Nodup :=
    ((sortAsc_perm users.dedup).symm).nodup (List.nodup_dedup users)
  have hcomb := hsorted.and hnd
  exact hcomb.map _ (fun a b hab => ⟨hab.1, hab.2⟩)

/-- The emitted rows of a ranking list: at most 10 of them. -/
theorem rank_rows_len (l : List (String × Nat)) :
    (((l.take 10).enum.map (fun p => (p.1 + 1, p.2))).length ≤ 10) := by
  rw [List.length_map, List.enum_length]
  exact List.length_take_le 10 l

/-- The emitted ranks are exactly 1, 2, …, N with no gaps. -/
theorem rank_rows_ranks (l : List (String × Nat)) :
    ((l.take 10).enum.map (fun p => (p.1 + 1, p.2))).map (fun e => e.1)
      = List.range' 1 ((l.take 10).enum.map (fun p => (p.1 + 1, p.2))).length := by
  rw [List.map_map, List.length_map, List.enum_length]
  have h1 : ((fun (e : Nat × String × Nat) => e.1)
      ∘ (fun (p : Nat × (String × Nat)) => (p.1 + 1, p.2)))
      = (fun n => n + 1) ∘ Prod.fst := rfl
  rw [h1, ← List.map_map, List.enum_map_fst, List.range'_eq_map_range]
  exact List.map_congr_left (fun a _ => by omega)

/-- Pairwise order transfers from the ranking list to the emitted rows. -/
theorem rank_rows_pairwise (l : List (String × Nat)) (hl : l.Pairwise countDescOrder) :
    ((l.take 10).enum.map (fun p => (p.1 + 1, p.2))).Pairwise
      (fun a b => countDescOrder a.2 b.2) := by
  have h1 : ((l.take 10).enum.map Prod.snd).Pairwise countDescOrder := by
    rw [List.enum_map_snd]
    exact List.Pairwise.sublist (List.take_sublist 10 l) hl
  have h2 := List.pairwise_map.mp h1
  exact List.pairwise_map.mpr h2

/-- C7 (amended): for every input and tracked category term, the ranking
computation produces at most 10 rows, with 1-based rank values 1..N and no
gaps, sorted by strictly non-increasing count; rows with equal counts appear
in ascending order of actor identifier (the grouping step sorts actors by
name), not in input encounter order. -/
theorem populate_rankings_ranked (term : String) (records : List FsRecord) :
    (populate_rankings term records).length ≤ 10
    ∧ (populate_rankings term records).map (fun e => e.1)
        = List.range' 1 (populate_rankings term records).length
    ∧ (populate_rankings term records).Pairwise (fun a b => countDescOrder a.2 b.2) := by
  have hunfold : populate_rankings term records
      = ((sortByCountDesc ((sortAsc (((records.filter
            (fun r => strContains r.event term)).map (fun r => r.user)).dedup)).map
            (fun u => (u, ((records.filter (fun r => strContains r.event term)).map
              (fun r => r.user)).count u)))).take 10).enum.map
          (fun p => (p.1 + 1, p.2)) := rfl
  rw [hunfold]
  refine ⟨rank_rows_len _, rank_rows_ranks _, rank_rows_pairwise _ ?_⟩
  exact sortByCountDesc_pairwise _ (grouped_pairwise _)

/-- C7 counterexample: two actors "b" then "a" (encounter order) with one
upload each are ranked with "a" first — ties follow ascending actor
identifier, not first-encounter order, so the claimed stable
encounter-order tie-breaking is false. -/
theorem populate_rankings_tie_counterexample :
    populate_rankings "上傳" [⟨"b", "上傳"⟩, ⟨"a", "上傳"⟩] = [(1, "a", 1), (2, "b", 1)]
    ∧ populate_rankings "上傳" [⟨"b", "上傳"⟩, ⟨"a", "上傳"⟩] ≠ [(1, "b", 1), (2, "a", 1)] :=
  ⟨by decide, by decide⟩
